import Mathlib

/-!
Verification of the Soter file-vault engine specification against a shallow
embedding of the Go source.

Conventions used throughout:
* Go strings are byte sequences; they are embedded as `List Nat` with each
  element `< 256`.  All string literals appearing in the embedded code are
  ASCII, so `strBytes` renders them one byte per character.
* `uuid.UUID` values are opaque identifiers compared only for equality; they
  are embedded as `Nat`.
* Go `int`/`int64` values occurring here (permission masks 0..0777, byte
  sizes, counters) are non-negative in every reachable state of the program,
  so they are embedded as `Nat`; on non-negative values Go's `>>`, `&`, `/`,
  `%` agree with the corresponding `Nat` operations.
-/

namespace Soter

/-- Bytes of an ASCII string literal (each character is one UTF-8 byte). -/
def strBytes (s : String) : List Nat := s.data.map Char.toNat

/-! ## Permission model

Embedded from `internal/models` (`Permission`, `PermissionSet`,
`FilePermissionCheck`, `ParseLinuxPermissions`) and from
`FileRepository.calculateUserFilePermissions` in
`internal/repository/file.go`. -/

/-- `models.Permission.HasPermission`: `int(p)&int(requested) == int(requested)`. -/
def permHasPermission (p requested : Nat) : Bool := p &&& requested == requested

/-- `models.Permission.CanRead`: `p.HasPermission(PermissionRead)` with `PermissionRead = 4`. -/
def permCanRead (p : Nat) : Bool := permHasPermission p 4

/-- `models.Permission.CanWrite`: `p.HasPermission(PermissionWrite)` with `PermissionWrite = 2`. -/
def permCanWrite (p : Nat) : Bool := permHasPermission p 2

/-- `models.Permission.CanExecute`: `p.HasPermission(PermissionExecute)` with `PermissionExecute = 1`. -/
def permCanExecute (p : Nat) : Bool := permHasPermission p 1

/-- `models.Permission.GetOwnerPermissions`: `(int(p) / 100) % 10`. -/
def getOwnerPermissions (p : Nat) : Nat := (p / 100) % 10

/-- `models.Permission.GetGroupPermissions`: `(int(p) / 10) % 10`. -/
def getGroupPermissions (p : Nat) : Nat := (p / 10) % 10

/-- `models.Permission.GetOtherPermissions`: `int(p) % 10`. -/
def getOtherPermissions (p : Nat) : Nat := p % 10

/-- `models.PermissionSet`: read/write/execute booleans for one triad. -/
structure PermissionSet where
  read : Bool
  write : Bool
  execute : Bool
deriving DecidableEq, Repr

/-- `models.FilePermissionCheck`: the simple booleans plus the detailed
triads and the octal rendering.  The Go zero values (`false`, empty string)
are written explicitly at each construction site, mirroring the source. -/
structure FilePermissionCheck where
  canRead : Bool
  canWrite : Bool
  canDownload : Bool
  canDelete : Bool
  canShare : Bool
  owner : PermissionSet
  group : PermissionSet
  others : PermissionSet
  octal : List Nat
deriving DecidableEq, Repr

/-- `fmt.Sprintf("%03o", n)` for `n ≥ 0`: octal digits zero-padded to
width 3, rendered as ASCII bytes. -/
def sprintfOct3 (n : Nat) : List Nat :=
  let ds := (Nat.toDigits 8 n).map Char.toNat
  List.replicate (3 - ds.length) 48 ++ ds

/-- The three bits of one permission digit, as tested in
`ParseLinuxPermissions` (`perms & 4`, `perms & 2`, `perms & 1`). -/
def bitTriad (t : Nat) : PermissionSet :=
  ⟨t &&& 4 != 0, t &&& 2 != 0, t &&& 1 != 0⟩

/-- `models.ParseLinuxPermissions` (bit-shift decoding of the stored mask):
owner/group/others digits are `value>>6 & 7`, `value>>3 & 7`, `value & 7`;
the applicable triad is the owner triad for the owner, the group triad when
the file has a primary group the user belongs to, and the others triad
otherwise. -/
def parseLinuxPermissions (permissions : Nat) (userID : Nat)
    (fileOwnerID groupID : Option Nat) (userGroupIDs : List Nat) :
    FilePermissionCheck :=
  let octal := sprintfOct3 permissions
  let ownerPerms := (permissions >>> 6) &&& 7
  let groupPerms := (permissions >>> 3) &&& 7
  let otherPerms := permissions &&& 7
  let owner := bitTriad ownerPerms
  let group := bitTriad groupPerms
  let others := bitTriad otherPerms
  let userPerms : PermissionSet :=
    if fileOwnerID = some userID then
      owner
    else
      match groupID with
      | some g => if userGroupIDs.contains g then group else others
      | none => others
  { canRead := userPerms.read
    canWrite := userPerms.write
    canDownload := userPerms.read
    canDelete := userPerms.write
    canShare := userPerms.read
    owner := owner
    group := group
    others := others
    octal := octal }

/-- `FileRepository.calculateUserFilePermissions` (decimal-digit decoding).
The Go code leaves `effectivePermission` at `0` unless the owner branch or
the group-membership loop assigns it, and inside the non-owner branch falls
back to the others digit whenever the accumulated value is still `0` —
including when the user *is* in the primary group but that group's digit
is `0`. -/
def calculateUserFilePermissions (userID : Nat) (userGroupIDs : List Nat)
    (fileOwnerID filePrimaryGroupID : Option Nat) (filePermissions : Nat) :
    FilePermissionCheck :=
  let perm := filePermissions
  let effectivePermission : Nat :=
    if fileOwnerID = some userID then
      getOwnerPermissions perm
    else
      let fromGroup : Nat :=
        match filePrimaryGroupID with
        | some pg => if userGroupIDs.contains pg then getGroupPermissions perm else 0
        | none => 0
      if fromGroup = 0 then getOtherPermissions perm else fromGroup
  { canRead := permCanRead effectivePermission
    canWrite := permCanWrite effectivePermission
    canDownload := permCanRead effectivePermission
    canDelete := permCanWrite effectivePermission
    canShare := permCanRead effectivePermission
    owner := ⟨false, false, false⟩
    group := ⟨false, false, false⟩
    others := ⟨false, false, false⟩
    octal := [] }

/-- The spec's precedence rule (§4.7, steps 1/3/4), over an abstract triad
type: owner triad if the principal owns the object, group triad if the
principal belongs to the object's primary group, others triad otherwise. -/
def specTriadChoice {α : Type} (ownerT groupT othersT : α) (userID : Nat)
    (fileOwnerID groupID : Option Nat) (userGroupIDs : List Nat) : α :=
  if fileOwnerID = some userID then ownerT
  else
    match groupID with
    | some g => if userGroupIDs.contains g then groupT else othersT
    | none => othersT

/-- Whether the user's group list contains the file's primary group
(the only way either resolver inspects the group list). -/
def memberOfPrimary (groupID : Option Nat) (userGroupIDs : List Nat) : Bool :=
  match groupID with
  | some g => userGroupIDs.contains g
  | none => false

/-- The effective decimal permission digit actually selected by
`calculateUserFilePermissions`: owner digit for the owner; group digit for a
member of the primary group only when that digit is non-zero; others digit
in every remaining case. -/
def amendedEffectiveDigit (p uid : Nat) (own pg : Option Nat) (gs : List Nat) : Nat :=
  if own = some uid then getOwnerPermissions p
  else if memberOfPrimary pg gs && (getGroupPermissions p != 0) then getGroupPermissions p
  else getOtherPermissions p

theorem land_seven (n : Nat) : n &&& 7 = n % 8 := by
  simpa using Nat.and_pow_two_sub_one_eq_mod n 3

theorem octalDigits_of_packed (a b c : Nat) (ha : a < 8) (hb : b < 8) (hc : c < 8) :
    ((64 * a + 8 * b + c) >>> 6) &&& 7 = a
    ∧ ((64 * a + 8 * b + c) >>> 3) &&& 7 = b
    ∧ (64 * a + 8 * b + c) &&& 7 = c := by
  have h6 : (64 * a + 8 * b + c) >>> 6 = (64 * a + 8 * b + c) / 64 := by
    simpa using Nat.shiftRight_eq_div_pow (64 * a + 8 * b + c) 6
  have h3 : (64 * a + 8 * b + c) >>> 3 = (64 * a + 8 * b + c) / 8 := by
    simpa using Nat.shiftRight_eq_div_pow (64 * a + 8 * b + c) 3
  refine ⟨?_, ?_, ?_⟩ <;> rw [land_seven] <;> [rw [h6]; rw [h3]; skip] <;> omega

/-- C3 counterexample: a principal (id 1) who is a member of the object's
primary group (id 2, contained in the principal's group list) but is not the
owner (id 9) resolves, for mask 604, to `can-read = true`, although the group
triad of the mask reads as false under the decimal decoding
(`GetGroupPermissions 604 = 0`) and under the bit decoding
(`604>>3 & 7 = 3`, read bit clear) alike: the group triad does not determine
the outcome. -/
theorem calculateUserFilePermissions_group_triad_counterexample :
    ([2].contains 2 = true)
    ∧ (some 9 : Option Nat) ≠ some 1
    ∧ (calculateUserFilePermissions 1 [2] (some 9) (some 2) 604).canRead = true
    ∧ permCanRead (getGroupPermissions 604) = false
    ∧ (bitTriad ((604 >>> 3) &&& 7)).read = false := by
  decide

/-- C3 (amended): `ParseLinuxPermissions` resolves exactly by the spec's
owner / primary-group / others precedence over its bit-decoded triads, and
`calculateUserFilePermissions` resolves by the same precedence over the
decimal-decoded digits **except** that a member of the primary group whose
group digit is zero falls through to the others digit. -/
theorem permission_precedence_amended (p uid : Nat) (own pg : Option Nat)
    (gs : List Nat) :
    ((parseLinuxPermissions p uid own pg gs).canRead
        = (specTriadChoice (bitTriad ((p >>> 6) &&& 7)) (bitTriad ((p >>> 3) &&& 7))
            (bitTriad (p &&& 7)) uid own pg gs).read
      ∧ (parseLinuxPermissions p uid own pg gs).canWrite
        = (specTriadChoice (bitTriad ((p >>> 6) &&& 7)) (bitTriad ((p >>> 3) &&& 7))
            (bitTriad (p &&& 7)) uid own pg gs).write
      ∧ (parseLinuxPermissions p uid own pg gs).canDownload
        = (specTriadChoice (bitTriad ((p >>> 6) &&& 7)) (bitTriad ((p >>> 3) &&& 7))
            (bitTriad (p &&& 7)) uid own pg gs).read
      ∧ (parseLinuxPermissions p uid own pg gs).canDelete
        = (specTriadChoice (bitTriad ((p >>> 6) &&& 7)) (bitTriad ((p >>> 3) &&& 7))
            (bitTriad (p &&& 7)) uid own pg gs).write
      ∧ (parseLinuxPermissions p uid own pg gs).canShare
        = (specTriadChoice (bitTriad ((p >>> 6) &&& 7)) (bitTriad ((p >>> 3) &&& 7))
            (bitTriad (p &&& 7)) uid own pg gs).read)
    ∧ ((calculateUserFilePermissions uid gs own pg p).canRead
        = permCanRead (amendedEffectiveDigit p uid own pg gs)
      ∧ (calculateUserFilePermissions uid gs own pg p).canWrite
        = permCanWrite (amendedEffectiveDigit p uid own pg gs)
      ∧ (calculateUserFilePermissions uid gs own pg p).canDownload
        = permCanRead (amendedEffectiveDigit p uid own pg gs)
      ∧ (calculateUserFilePermissions uid gs own pg p).canDelete
        = permCanWrite (amendedEffectiveDigit p uid own pg gs)
      ∧ (calculateUserFilePermissions uid gs own pg p).canShare
        = permCanRead (amendedEffectiveDigit p uid own pg gs)) := by
  constructor
  · by_cases h1 : own = some uid
    · simp [parseLinuxPermissions, specTriadChoice, h1]
    · cases pg with
      | none => simp [parseLinuxPermissions, specTriadChoice, h1]
      | some g =>
        by_cases h2 : gs.contains g
        · simp [parseLinuxPermissions, specTriadChoice, h1, h2]
        · simp [parseLinuxPermissions, specTriadChoice, h1, h2]
  · by_cases h1 : own = some uid
    · simp [calculateUserFilePermissions, amendedEffectiveDigit, memberOfPrimary, h1]
    · cases pg with
      | none =>
        simp [calculateUserFilePermissions, amendedEffectiveDigit, memberOfPrimary, h1]
      | some g =>
        by_cases h2 : g ∈ gs
        · by_cases h3 : getGroupPermissions p = 0
          · simp [calculateUserFilePermissions, amendedEffectiveDigit, memberOfPrimary,
              h1, h2, h3]
          · simp [calculateUserFilePermissions, amendedEffectiveDigit, memberOfPrimary,
              h1, h2, h3]
        · simp [calculateUserFilePermissions, amendedEffectiveDigit, memberOfPrimary,
            h1, h2]

/-- C4 counterexample: a principal (id 1) whose group list `[7]` contains the
admin system group of the object's organization (group id 7), who is neither
the owner (id 9) nor a member of the primary group (id 2), resolves to
`can-read = can-write = false` for mask 600 under both resolvers — not the
claimed unconditional `{true, true, true}`. -/
theorem admin_override_counterexample :
    (calculateUserFilePermissions 1 [7] (some 9) (some 2) 600).canRead = false
    ∧ (calculateUserFilePermissions 1 [7] (some 9) (some 2) 600).canWrite = false
    ∧ (parseLinuxPermissions 600 1 (some 9) (some 2) [7]).canRead = false
    ∧ (parseLinuxPermissions 600 1 (some 9) (some 2) [7]).canWrite = false := by
  decide

/-- C4 (amended): neither resolver gives any group — in particular the
`admin` system group — an override: the result depends on the principal's
group list only through membership in the object's primary group, so two
group lists agreeing on that membership yield identical results. -/
theorem admin_membership_no_override (p uid : Nat) (own pg : Option Nat)
    (gs gs' : List Nat) (h : memberOfPrimary pg gs = memberOfPrimary pg gs') :
    parseLinuxPermissions p uid own pg gs = parseLinuxPermissions p uid own pg gs'
    ∧ calculateUserFilePermissions uid gs own pg p
      = calculateUserFilePermissions uid gs' own pg p := by
  cases pg with
  | none => exact ⟨rfl, rfl⟩
  | some g =>
    simp only [memberOfPrimary] at h
    constructor
    · simp only [parseLinuxPermissions, h]
    · simp only [calculateUserFilePermissions, h]

/-- Witness for `admin_membership_no_override`: dropping the admin group id 7
from the group list leaves the resolution of mask 600 unchanged. -/
theorem admin_membership_no_override_witness :
    memberOfPrimary (some 2) [7] = memberOfPrimary (some 2) []
    ∧ parseLinuxPermissions 600 1 (some 9) (some 2) [7]
      = parseLinuxPermissions 600 1 (some 9) (some 2) []
    ∧ calculateUserFilePermissions 1 [7] (some 9) (some 2) 600
      = calculateUserFilePermissions 1 [] (some 9) (some 2) 600 :=
  ⟨by decide,
   (admin_membership_no_override 600 1 (some 9) (some 2) [7] [] (by decide)).1,
   (admin_membership_no_override 600 1 (some 9) (some 2) [7] [] (by decide)).2⟩

/-- C10 counterexample: for the stored value 644 (the repository's default
mask literal) the owner triad computed by `ParseLinuxPermissions`
(`644>>6 & 7 = 2`, i.e. write-only) differs from the owner triad computed by
`GetOwnerPermissions` (`(644/100)%10 = 6`, i.e. read+write); consequently the
metadata path and the listing path disagree for the file's owner. -/
theorem permission_decoders_counterexample :
    (parseLinuxPermissions 644 1 (some 1) none []).owner
      ≠ ⟨permCanRead (getOwnerPermissions 644), permCanWrite (getOwnerPermissions 644),
          permCanExecute (getOwnerPermissions 644)⟩
    ∧ (parseLinuxPermissions 644 1 (some 1) none []).canRead = false
    ∧ (calculateUserFilePermissions 1 [] (some 1) none 644).canRead = true := by
  refine ⟨?_, by decide, by decide⟩
  decide

/-- C10 (amended): the two decoders agree only up to re-encoding of the
stored integer: for octal digits `a b c < 8`, the bit-shift decoding of the
octal-packed value `64a+8b+c` and the decimal-digit decoding of the
decimal-packed value `100a+10b+c` both recover the triads `(a, b, c)`, and a
digit yields the same read/write/execute booleans under both bit tests
(`&4,&2,&1`) and the `CanRead/CanWrite/CanExecute` tests. On one and the
same stored integer the decoders differ (see the counterexample). -/
theorem permission_decoders_reencode (a b c uid : Nat) (own pg : Option Nat)
    (gs : List Nat) (ha : a < 8) (hb : b < 8) (hc : c < 8) :
    (parseLinuxPermissions (64 * a + 8 * b + c) uid own pg gs).owner = bitTriad a
    ∧ (parseLinuxPermissions (64 * a + 8 * b + c) uid own pg gs).group = bitTriad b
    ∧ (parseLinuxPermissions (64 * a + 8 * b + c) uid own pg gs).others = bitTriad c
    ∧ getOwnerPermissions (100 * a + 10 * b + c) = a
    ∧ getGroupPermissions (100 * a + 10 * b + c) = b
    ∧ getOtherPermissions (100 * a + 10 * b + c) = c
    ∧ bitTriad a = ⟨permCanRead a, permCanWrite a, permCanExecute a⟩
    ∧ bitTriad b = ⟨permCanRead b, permCanWrite b, permCanExecute b⟩
    ∧ bitTriad c = ⟨permCanRead c, permCanWrite c, permCanExecute c⟩ := by
  obtain ⟨d6, d3, d0⟩ := octalDigits_of_packed a b c ha hb hc
  refine ⟨?_, ?_, ?_, ?_, ?_, ?_, ?_, ?_, ?_⟩
  · simp [parseLinuxPermissions, d6]
  · simp [parseLinuxPermissions, d3]
  · simp [parseLinuxPermissions, d0]
  · simp only [getOwnerPermissions]; omega
  · simp only [getGroupPermissions]; omega
  · simp only [getOtherPermissions]; omega
  · interval_cases a <;> decide
  · interval_cases b <;> decide
  · interval_cases c <;> decide

/-- Witness for `permission_decoders_reencode` at the digits of the default
mask `644`. -/
theorem permission_decoders_reencode_witness :
    (6 < 8 ∧ 4 < 8)
    ∧ (parseLinuxPermissions (64 * 6 + 8 * 4 + 4) 1 none none []).owner = bitTriad 6
    ∧ getOwnerPermissions (100 * 6 + 10 * 4 + 4) = 6 :=
  ⟨⟨by decide, by decide⟩,
   (permission_decoders_reencode 6 4 4 1 none none [] (by decide) (by decide)
      (by decide)).1,
   (permission_decoders_reencode 6 4 4 1 none none [] (by decide) (by decide)
      (by decide)).2.2.2.1⟩

/-! ## Go string primitives

Byte-level renderings of the Go standard-library functions used by the
validation service (`strings.Contains`, `strings.TrimSpace`,
`strings.ToLower` on ASCII, `filepath.Ext`, `unicode/utf8` decoding). -/

/-- `sub` occurs at the start of `l` (byte-level `strings.HasPrefix`). -/
def startsWithSeq : List Nat → List Nat → Bool
  | _, [] => true
  | [], _ :: _ => false
  | a :: as, b :: bs => a == b && startsWithSeq as bs

/-- `strings.Contains l sub` at byte level: `sub` occurs contiguously in `l`. -/
def containsSeq : List Nat → List Nat → Bool
  | [], sub => sub.isEmpty
  | l@(_ :: rest), sub => startsWithSeq l sub || containsSeq rest sub

/-- One step of `unicode/utf8` rune decoding, as performed by
`utf8.DecodeRuneInString`: given the first byte and the remaining bytes,
return the decoded rune and how many *further* bytes it consumed.  Malformed
input yields `U+FFFD` of width one (extra = 0). -/
def utf8DecodeStep (b : Nat) (rest : List Nat) : Nat × Nat :=
  if b < 0x80 then (b, 0)
  else if 0xC2 ≤ b && b ≤ 0xDF then
    match rest with
    | b1 :: _ =>
      if 0x80 ≤ b1 && b1 ≤ 0xBF then ((b - 0xC0) * 0x40 + (b1 - 0x80), 1)
      else (0xFFFD, 0)
    | [] => (0xFFFD, 0)
  else if 0xE0 ≤ b && b ≤ 0xEF then
    match rest with
    | b1 :: b2 :: _ =>
      let lo1 : Nat := if b == 0xE0 then 0xA0 else 0x80
      let hi1 : Nat := if b == 0xED then 0x9F else 0xBF
      if lo1 ≤ b1 && b1 ≤ hi1 && 0x80 ≤ b2 && b2 ≤ 0xBF then
        ((b - 0xE0) * 0x1000 + (b1 - 0x80) * 0x40 + (b2 - 0x80), 2)
      else (0xFFFD, 0)
    | _ => (0xFFFD, 0)
  else if 0xF0 ≤ b && b ≤ 0xF4 then
    match rest with
    | b1 :: b2 :: b3 :: _ =>
      let lo1 : Nat := if b == 0xF0 then 0x90 else 0x80
      let hi1 : Nat := if b == 0xF4 then 0x8F else 0xBF
      if lo1 ≤ b1 && b1 ≤ hi1 && 0x80 ≤ b2 && b2 ≤ 0xBF && 0x80 ≤ b3 && b3 ≤ 0xBF then
        ((b - 0xF0) * 0x40000 + (b1 - 0x80) * 0x1000 + (b2 - 0x80) * 0x40 + (b3 - 0x80), 3)
      else (0xFFFD, 0)
    | _ => (0xFFFD, 0)
  else (0xFFFD, 0)

/-- Iterated rune decoding with an explicit step budget.  Each step consumes
at least one byte, so a budget equal to the byte length decodes the whole
string; the budget only makes the recursion structural. -/
def utf8RunesFuel : Nat → List Nat → List Nat
  | 0, _ => []
  | _, [] => []
  | fuel + 1, b :: rest =>
    (utf8DecodeStep b rest).1
      :: utf8RunesFuel fuel (rest.drop (utf8DecodeStep b rest).2)

/-- The rune sequence of a Go string (UTF-8 decoding with `U+FFFD` for
malformed bytes), as traversed by `strings.TrimFunc`. -/
def utf8Runes (l : List Nat) : List Nat := utf8RunesFuel l.length l

/-- `unicode.IsSpace`: the Unicode `White_Space` code points. -/
def goIsSpaceRune (r : Nat) : Bool :=
  r == 9 || r == 10 || r == 11 || r == 12 || r == 13 || r == 32
    || r == 0x85 || r == 0xA0 || r == 0x1680
    || (decide (0x2000 ≤ r) && decide (r ≤ 0x200A))
    || r == 0x2028 || r == 0x2029 || r == 0x202F || r == 0x205F || r == 0x3000

/-- The test `strings.TrimSpace(s) == ""`: trimming white space from both
ends consumes the whole string exactly when every rune of `s` is white
space. -/
def trimSpaceIsEmpty (l : List Nat) : Bool := (utf8Runes l).all goIsSpaceRune

/-- `strings.ToLower` restricted to its ASCII action (all the patterns it is
compared against in this code are ASCII). -/
def asciiToLower (l : List Nat) : List Nat :=
  l.map fun b => if 65 ≤ b && b ≤ 90 then b + 32 else b

/-- `filepath.Ext` scanning a reversed byte list: walk from the end of the
path, stop at a path separator, return the suffix from the final dot. -/
def extFromRev : List Nat → List Nat → List Nat
  | [], _ => []
  | b :: rest, acc =>
    if b == 47 then [] else if b == 46 then 46 :: acc else extFromRev rest (b :: acc)

/-- `filepath.Ext`: the suffix beginning at the final dot in the final
slash-separated element of the path; empty if there is no dot. -/
def filepathExt (f : List Nat) : List Nat := extFromRev f.reverse []

/-- Decimal rendering of a non-negative integer (`fmt.Sprintf("%d", n)`). -/
def sprintfD (n : Nat) : List Nat := (Nat.toDigits 10 n).map Char.toNat

/-! ## Content validator (`FileValidationService`, `src/unnamed/part_009`) -/

/-- `models.MaxFileSize = 100 * 1024 * 1024 * 1024` (100 GiB). -/
def maxFileSize : Nat := 100 * 1024 * 1024 * 1024

/-- `models.FileValidationResult`. -/
structure FileValidationResult where
  isValid : Bool
  detectedMimeType : List Nat
  contentHash : List Nat
  fileSize : Nat
  errors : List (List Nat)
  warnings : List (List Nat)
deriving DecidableEq, Repr

/-- The result value `ValidateFile` starts from: valid, with empty error and
warning lists (remaining fields at their Go zero values). -/
def newValidationResult : FileValidationResult :=
  { isValid := true, detectedMimeType := [], contentHash := [], fileSize := 0
    errors := [], warnings := [] }

/-- The message `fmt.Sprintf("File size (%d bytes) exceeds maximum allowed
size (%d bytes)", size, models.MaxFileSize)`. -/
def fileSizeExceedsMsg (size : Nat) : List Nat :=
  strBytes "File size (" ++ sprintfD size
    ++ strBytes " bytes) exceeds maximum allowed size ("
    ++ sprintfD maxFileSize ++ strBytes " bytes)"

/-- `FileValidationService.validateFileSize`: an empty file and a file above
`models.MaxFileSize` each mark the result invalid and append an error. -/
def validateFileSize (size : Nat) (result : FileValidationResult) :
    FileValidationResult :=
  let r1 :=
    if size == 0 then
      { result with isValid := false
                    errors := result.errors ++ [strBytes "File is empty"] }
    else result
  if size > maxFileSize then
    { r1 with isValid := false, errors := r1.errors ++ [fileSizeExceedsMsg size] }
  else r1

/-- The `dangerousChars` list of `validateFilename`. -/
def dangerousChars : List (List Nat) :=
  [strBytes "../", strBytes "..\\", strBytes "<", strBytes ">", strBytes ":",
   strBytes "\"", strBytes "|", strBytes "?", strBytes "*"]

/-- One iteration of the `dangerousChars` loop in `validateFilename`. -/
def dangerousCharStep (filename : List Nat) (r : FileValidationResult)
    (c : List Nat) : FileValidationResult :=
  if containsSeq filename c then
    { r with isValid := false
             errors := r.errors
               ++ [strBytes "Filename contains dangerous character: " ++ c] }
  else r

/-- The length check of `validateFilename`: `len(filename) > 255` (Go `len`
counts bytes). -/
def validateFilenameLen (filename : List Nat) (r : FileValidationResult) :
    FileValidationResult :=
  if filename.length > 255 then
    { r with isValid := false
             errors := r.errors
               ++ [strBytes "Filename is too long (max 255 characters)"] }
  else r

/-- The NUL check of `validateFilename`: `strings.Contains(filename, "\x00")`. -/
def validateFilenameNul (filename : List Nat) (r : FileValidationResult) :
    FileValidationResult :=
  if containsSeq filename [0] then
    { r with isValid := false
             errors := r.errors ++ [strBytes "Filename contains null bytes"] }
  else r

/-- `FileValidationService.validateFilename`: reject blank names (early
return), then accumulate errors for dangerous substrings, over-long names
and NUL bytes. -/
def validateFilename (filename : List Nat) (result : FileValidationResult) :
    FileValidationResult :=
  if trimSpaceIsEmpty filename then
    { result with isValid := false
                  errors := result.errors ++ [strBytes "Filename cannot be empty"] }
  else
    validateFilenameNul filename
      (validateFilenameLen filename
        (dangerousChars.foldl (dangerousCharStep filename) result))

theorem dangerousCharStep_isValid_false (f c : List Nat) (r : FileValidationResult)
    (h : r.isValid = false) : (dangerousCharStep f r c).isValid = false := by
  unfold dangerousCharStep
  split <;> simp [h]

theorem foldl_dangerousCharStep_isValid_false (f : List Nat)
    (cs : List (List Nat)) (r : FileValidationResult) (h : r.isValid = false) :
    (cs.foldl (dangerousCharStep f) r).isValid = false := by
  induction cs generalizing r with
  | nil => simpa using h
  | cons c cs ih => exact ih _ (dangerousCharStep_isValid_false f c r h)

theorem foldl_dangerousCharStep_invalid_of_mem (f : List Nat)
    (cs : List (List Nat)) (r : FileValidationResult) (c : List Nat)
    (hc : c ∈ cs) (hcon : containsSeq f c = true) :
    (cs.foldl (dangerousCharStep f) r).isValid = false := by
  induction cs generalizing r with
  | nil => cases hc
  | cons d ds ih =>
    rcases List.mem_cons.mp hc with h | h
    · subst h
      exact foldl_dangerousCharStep_isValid_false f ds _
        (by unfold dangerousCharStep; simp [hcon])
    · exact ih _ h

theorem validateFilenameLen_isValid_false (f : List Nat) (r : FileValidationResult)
    (h : r.isValid = false) : (validateFilenameLen f r).isValid = false := by
  unfold validateFilenameLen
  split <;> simp [h]

theorem validateFilenameNul_isValid_false (f : List Nat) (r : FileValidationResult)
    (h : r.isValid = false) : (validateFilenameNul f r).isValid = false := by
  unfold validateFilenameNul
  split <;> simp [h]

theorem utf8RunesFuel_length_le (n : Nat) :
    ∀ l : List Nat, (utf8RunesFuel n l).length ≤ n := by
  induction n with
  | zero => intro l; cases l <;> simp [utf8RunesFuel]
  | succ n ih =>
    intro l
    cases l with
    | nil => simp [utf8RunesFuel]
    | cons b rest =>
      simp only [utf8RunesFuel, List.length_cons]
      exact Nat.succ_le_succ (ih _)

theorem utf8Runes_length_le (l : List Nat) : (utf8Runes l).length ≤ l.length :=
  utf8RunesFuel_length_le l.length l

/-- C5: the size check fails exactly for empty input and input above the
configured maximum: validity after the check is the prior validity conjoined
with `¬(size = 0 ∨ size > maxFileSize)`; no error is added otherwise; an
empty file gets the `File is empty` error; a file of exactly `maxFileSize`
passes unchanged; one byte more fails. -/
theorem validateFileSize_boundary (size : Nat) (r : FileValidationResult) :
    ((validateFileSize size r).isValid
        = (r.isValid && !(size == 0 || decide (size > maxFileSize))))
    ∧ ((validateFileSize size r).errors.length = r.errors.length
        ↔ (size ≠ 0 ∧ size ≤ maxFileSize))
    ∧ (size = 0 → strBytes "File is empty" ∈ (validateFileSize size r).errors)
    ∧ validateFileSize maxFileSize r = r
    ∧ (validateFileSize (maxFileSize + 1) r).isValid = false := by
  have hmax0 : (maxFileSize == 0) = false := by decide
  refine ⟨?_, ?_, ?_, ?_, ?_⟩
  · unfold validateFileSize
    by_cases h0 : size = 0
    · subst h0
      have : ¬ (0 > maxFileSize) := by omega
      simp [this]
    · by_cases h1 : size > maxFileSize <;> simp [h0, h1]
  · unfold validateFileSize
    by_cases h0 : size = 0
    · subst h0
      have : ¬ (0 > maxFileSize) := by unfold maxFileSize; omega
      simp [this]
    · by_cases h1 : size > maxFileSize <;> simp [h0, h1] <;> omega
  · intro h0
    subst h0
    unfold validateFileSize
    have : ¬ (0 > maxFileSize) := by omega
    simp [this]
  · unfold validateFileSize
    have h2 : ¬ (maxFileSize > maxFileSize) := by omega
    simp [hmax0, h2]
  · unfold validateFileSize
    have h1 : (maxFileSize + 1 == 0) = false := by simp
    have h2 : maxFileSize + 1 > maxFileSize := by omega
    simp [h1, h2]

/-- Witness for `validateFileSize_boundary`: the empty file receives the
`File is empty` error. -/
theorem validateFileSize_boundary_witness :
    strBytes "File is empty" ∈ (validateFileSize 0 newValidationResult).errors
    ∧ (0 : Nat) = 0 :=
  ⟨(validateFileSize_boundary 0 newValidationResult).2.2.1 rfl, rfl⟩

/-- C6: `validateFilename` rejects every blank filename (empty or all-white-
space, i.e. `strings.TrimSpace` leaves nothing), every filename containing
one of the dangerous substrings `../ ..\ < > : " | ? *`, every filename
longer than 255 bytes (hence, since a rune occupies at least one byte, every
filename of more than 255 characters), and every filename containing NUL. -/
theorem validateFilename_rejects (f : List Nat) (r : FileValidationResult) :
    (trimSpaceIsEmpty f = true → (validateFilename f r).isValid = false)
    ∧ (∀ c ∈ dangerousChars, containsSeq f c = true →
        (validateFilename f r).isValid = false)
    ∧ (f.length > 255 → (validateFilename f r).isValid = false)
    ∧ ((utf8Runes f).length > 255 → (validateFilename f r).isValid = false)
    ∧ (containsSeq f [0] = true → (validateFilename f r).isValid = false) := by
  by_cases htrim : trimSpaceIsEmpty f
  · refine ⟨fun _ => ?_, fun c hc hcon => ?_, fun h => ?_, fun h => ?_, fun h => ?_⟩ <;>
      simp [validateFilename, htrim]
  · have hlen : ∀ h255 : f.length > 255, (validateFilename f r).isValid = false := by
      intro h255
      unfold validateFilename validateFilenameLen
      simp only [htrim, if_false, h255, if_true]
      exact validateFilenameNul_isValid_false f _ (by simp)
    refine ⟨fun h => absurd h (by simp [htrim]), fun c hc hcon => ?_, hlen,
      fun h => ?_, fun h => ?_⟩
    · unfold validateFilename
      simp only [htrim, if_false]
      exact validateFilenameNul_isValid_false f _
        (validateFilenameLen_isValid_false f _
          (foldl_dangerousCharStep_invalid_of_mem f dangerousChars r c hc hcon))
    · exact hlen (Nat.lt_of_lt_of_le h (utf8Runes_length_le f))
    · unfold validateFilename validateFilenameNul
      simp [htrim, h]

/-- Witness for `validateFilename_rejects`: the filename `..\evil` contains
the dangerous substring `..\` and is rejected. -/
theorem validateFilename_rejects_witness :
    strBytes "..\\" ∈ dangerousChars
    ∧ containsSeq (strBytes "..\\evil") (strBytes "..\\") = true
    ∧ (validateFilename (strBytes "..\\evil") newValidationResult).isValid = false :=
  ⟨by decide, by decide,
   (validateFilename_rejects (strBytes "..\\evil") newValidationResult).2.1
     (strBytes "..\\") (by decide) (by decide)⟩

/-! ## Content-addressed storage keys -/

/-- `FileUploadService.generateStoragePath` (`services/file_upload.go`):
`fmt.Sprintf("files/%s/%s/%s", contentHash[:2], contentHash[2:4], contentHash)`. -/
def generateStoragePathService (contentHash : List Nat) : List Nat :=
  strBytes "files/" ++ contentHash.take 2 ++ strBytes "/"
    ++ (contentHash.drop 2).take 2 ++ strBytes "/" ++ contentHash

/-- The package-level `generateStoragePath` (`repository/file.go`), same
format string and slices. -/
def generateStoragePathRepo (contentHash : List Nat) : List Nat :=
  strBytes "files/" ++ contentHash.take 2 ++ strBytes "/"
    ++ (contentHash.drop 2).take 2 ++ strBytes "/" ++ contentHash

/-- Modelled from the spec (§4.1/§6): the object-store key
`files/<fp[0:2]>/<fp[2:4]>/<fp>` written with explicit slice bounds
`fp[a:b] = (drop a, take b-a)`. -/
def specObjectKey (fp : List Nat) : List Nat :=
  strBytes "files/" ++ ((fp.drop 0).take (2 - 0)) ++ strBytes "/"
    ++ ((fp.drop 2).take (4 - 2)) ++ strBytes "/" ++ fp

/-- C7: for a 64-character fingerprint both `generateStoragePath`
implementations produce exactly the key `files/<fp[0:2]>/<fp[2:4]>/<fp>`. -/
theorem generateStoragePath_key (fp : List Nat) (hlen : fp.length = 64) :
    generateStoragePathService fp = specObjectKey fp
    ∧ generateStoragePathRepo fp = generateStoragePathService fp := by
  constructor
  · unfold generateStoragePathService specObjectKey
    simp
  · rfl

/-- Witness for `generateStoragePath_key` at the SHA-256 fingerprint of the
empty string. -/
theorem generateStoragePath_key_witness :
    (strBytes "e3b0c44298fc1c149afbf4c8996fb92427ae41e4649b934ca495991b7852b855").length = 64
    ∧ generateStoragePathService
        (strBytes "e3b0c44298fc1c149afbf4c8996fb92427ae41e4649b934ca495991b7852b855")
      = specObjectKey
        (strBytes "e3b0c44298fc1c149afbf4c8996fb92427ae41e4649b934ca495991b7852b855") :=
  ⟨by decide,
   (generateStoragePath_key
      (strBytes "e3b0c44298fc1c149afbf4c8996fb92427ae41e4649b934ca495991b7852b855")
      (by decide)).1⟩

/-! ## Virus-scan stream (`FileValidationService.scanForViruses`) -/

/-- The command written first: `conn.Write([]byte("nINSTREAM\n"))`. -/
def instreamCommand : List Nat := strBytes "nINSTREAM\n"

/-- `fmt.Sprintf("%08x", n)`: lowercase hex, zero-padded to width 8, as
ASCII bytes. -/
def sprintfHex8 (n : Nat) : List Nat :=
  let ds := (Nat.toDigits 16 n).map Char.toNat
  List.replicate (8 - ds.length) 48 ++ ds

/-- The bytes `scanForViruses` writes for one chunk read of `n` bytes:
the ASCII rendering of `fmt.Sprintf("%08x", n)` followed by the chunk. -/
def clamavChunkFrame (chunk : List Nat) : List Nat :=
  sprintfHex8 chunk.length ++ chunk

/-- The end-of-stream marker the code writes: `conn.Write([]byte("00000000"))`. -/
def clamavEndMarker : List Nat := strBytes "00000000"

/-- Everything `scanForViruses` writes to the scanner connection for a
content split into the given (non-empty) read chunks. -/
def scanStreamBytes (chunks : List (List Nat)) : List Nat :=
  instreamCommand ++ (chunks.map clamavChunkFrame).flatten ++ clamavEndMarker

/-- A 32-bit big-endian encoding of `n`. -/
def be32 (n : Nat) : List Nat :=
  [n / 2 ^ 24 % 256, n / 2 ^ 16 % 256, n / 2 ^ 8 % 256, n % 256]

/-- Modelled from the spec (§6 virus-scan interface): send `nINSTREAM\n`,
then each chunk as a 4-byte big-endian binary length prefix plus the chunk
bytes, terminated by 4 zero bytes. -/
def specScanStreamBytes (chunks : List (List Nat)) : List Nat :=
  strBytes "nINSTREAM\n" ++ (chunks.map (fun c => be32 c.length ++ c)).flatten
    ++ [0, 0, 0, 0]

/-- The classification `scanForViruses` applies to the response line. -/
inductive ScanStatus where
  | infected
  | clean
  | scanFailed
deriving DecidableEq, Repr

/-- Response parsing: `strings.Contains(resp, "FOUND")` marks the scan
infected, otherwise `strings.Contains(resp, "OK")` marks it clean, anything
else is an error. -/
def parseScanResponse (resp : List Nat) : ScanStatus :=
  if containsSeq resp (strBytes "FOUND") then ScanStatus.infected
  else if containsSeq resp (strBytes "OK") then ScanStatus.clean
  else ScanStatus.scanFailed

/-- C8: at the failing input — a one-byte content `0x41` read in a single
chunk — the code emits the chunk length as the eight ASCII characters
`00000001` and terminates with the eight ASCII characters `00000000`,
whereas the claimed wire format (the scanner's actual INSTREAM protocol)
prefixes four binary big-endian bytes and terminates with four zero bytes;
the response-line classification itself matches the claim. -/
theorem scanForViruses_frame_divergence :
    scanStreamBytes [[0x41]]
      = strBytes "nINSTREAM\n" ++ strBytes "00000001" ++ [0x41]
        ++ strBytes "00000000"
    ∧ specScanStreamBytes [[0x41]]
      = strBytes "nINSTREAM\n" ++ [0, 0, 0, 1] ++ [0x41] ++ [0, 0, 0, 0]
    ∧ scanStreamBytes [[0x41]] ≠ specScanStreamBytes [[0x41]]
    ∧ parseScanResponse (strBytes "stream: Eicar-Signature FOUND")
      = ScanStatus.infected
    ∧ parseScanResponse (strBytes "stream: OK") = ScanStatus.clean
    ∧ parseScanResponse (strBytes "INSTREAM size limit exceeded. ERROR")
      = ScanStatus.scanFailed := by
  refine ⟨by decide, by decide, by decide, by decide, by decide, by decide⟩

/-! ## Rate limiter (`middleware`, `src/unnamed/part_010`)

The `x/time/rate` limiters are embedded by their instantaneous state: the
number of whole tokens available at the decision instant; `Allow()` succeeds
exactly when at least one token is available and then consumes it.  A
freshly created limiter starts with `burst` tokens. -/

/-- The limiter maps of `RateLimiter`, with the configured burst sizes. -/
structure RateLimiterState where
  userBuckets : List (Nat × Nat)
  orgBuckets : List (Nat × Nat)
  userBurst : Nat
  orgBurst : Nat
deriving DecidableEq, Repr

/-- Tokens currently available in a bucket map for a key. -/
def lookupBucket (m : List (Nat × Nat)) (k : Nat) : Option Nat :=
  (m.find? (fun e => e.1 == k)).map (fun e => e.2)

/-- `RateLimiter.GetUserLimiter`: return the existing limiter for the user,
or create one with `userBurst` tokens. -/
def getUserLimiterTokens (s : RateLimiterState) (uid : Nat) :
    Nat × RateLimiterState :=
  match lookupBucket s.userBuckets uid with
  | some t => (t, s)
  | none =>
    (s.userBurst, { s with userBuckets := s.userBuckets ++ [(uid, s.userBurst)] })

/-- Consuming the token taken by a successful `Allow()` on the user's limiter. -/
def consumeUserToken (s : RateLimiterState) (uid : Nat) : RateLimiterState :=
  { s with userBuckets :=
      s.userBuckets.map (fun e => if e.1 == uid then (e.1, e.2 - 1) else e) }

/-- Outcome of the middleware for one request. -/
inductive AdmissionOutcome where
  | next
  | tooManyRequests
deriving DecidableEq, Repr

/-- `RateLimiter.RateLimitMiddleware`: unauthenticated requests pass
through; otherwise the user's limiter is fetched and `Allow()` decides —
the organization buckets are never consulted. -/
def rateLimitMiddleware (s : RateLimiterState) (userID : Option Nat) :
    AdmissionOutcome × RateLimiterState :=
  match userID with
  | none => (AdmissionOutcome.next, s)
  | some uid =>
    let r := getUserLimiterTokens s uid
    if 1 ≤ r.1 then (AdmissionOutcome.next, consumeUserToken r.2 uid)
    else (AdmissionOutcome.tooManyRequests, r.2)

/-- C2 counterexample: the principal's bucket holds one token while the
principal's organization's bucket (org id 5) is empty, yet the request is
admitted — so admission does not require a token from the organization
bucket. -/
theorem rateLimit_org_bucket_counterexample :
    (rateLimitMiddleware ⟨[(1, 1)], [(5, 0)], 5, 50⟩ (some 1)).1
      = AdmissionOutcome.next
    ∧ lookupBucket ([(5, 0)] : List (Nat × Nat)) 5 = some 0 := by
  refine ⟨by decide, by decide⟩

/-- C2 (amended): an authenticated request is admitted **iff** the
principal's own bucket has a token (a fresh bucket holds `userBurst`
tokens); the organization buckets are maintained but never consulted nor
changed by the admission decision, and unauthenticated requests always pass
through. -/
theorem rateLimit_admission_amended (s : RateLimiterState) (uid : Nat) :
    ((rateLimitMiddleware s (some uid)).1 = AdmissionOutcome.next
      ↔ 1 ≤ (getUserLimiterTokens s uid).1)
    ∧ (rateLimitMiddleware s (some uid)).2.orgBuckets = s.orgBuckets
    ∧ (rateLimitMiddleware s none).1 = AdmissionOutcome.next := by
  refine ⟨?_, ?_, rfl⟩
  · unfold rateLimitMiddleware
    by_cases h : 1 ≤ (getUserLimiterTokens s uid).1 <;> simp [h]
  · unfold rateLimitMiddleware
    by_cases h : 1 ≤ (getUserLimiterTokens s uid).1
    · simp only [h, if_true]
      unfold consumeUserToken getUserLimiterTokens
      cases hl : lookupBucket s.userBuckets uid <;> simp
    · simp only [h, if_false]
      unfold getUserLimiterTokens
      cases hl : lookupBucket s.userBuckets uid <;> simp

/-- Witness for `rateLimit_admission_amended`: a user with three tokens is
admitted. -/
theorem rateLimit_admission_amended_witness :
    (rateLimitMiddleware ⟨[(2, 3)], [], 5, 50⟩ (some 2)).1
      = AdmissionOutcome.next :=
  ((rateLimit_admission_amended ⟨[(2, 3)], [], 5, 50⟩ 2).1).mpr (by decide)

/-! ## User references and deletion (`models.UserFile`,
`FileRepository.GetUserFile` / `SoftDeleteUserFile`,
`FileHandler.DeleteFile`) -/

/-- `models.UserFile` (the fields the embedded operations read or write). -/
structure UserFileRec where
  id : Nat
  userID : Nat
  fileID : Nat
  userFilename : List Nat
  folderPath : List Nat
  isDeleted : Bool
  downloadCount : Nat
deriving DecidableEq, Repr

/-- `FileRepository.GetUserFile`: first row with
`id = ? AND user_id = ? AND is_deleted = false`; an error (mapped by the
handler to not-found) when there is none. -/
def getUserFile (ufs : List UserFileRec) (userID userFileID : Nat) :
    Option UserFileRec :=
  ufs.find? (fun uf => uf.id == userFileID && uf.userID == userID && !uf.isDeleted)

/-- `FileRepository.SoftDeleteUserFile`: set `is_deleted = true` on every
row with the given id. -/
def softDeleteUserFile (ufs : List UserFileRec) (userFileID : Nat) :
    List UserFileRec :=
  ufs.map (fun uf => if uf.id == userFileID then { uf with isDeleted := true } else uf)

/-- `FileHandler.DeleteFile` (after authentication and id parsing): look the
reference up (missing/already-deleted ⇒ 404), re-check ownership (403), then
soft-delete (200).  The returned number is the HTTP status. -/
def deleteFileHandler (ufs : List UserFileRec) (userID userFileID : Nat) :
    Nat × List UserFileRec :=
  match getUserFile ufs userID userFileID with
  | none => (404, ufs)
  | some userFile =>
    if userFile.userID != userID then (403, ufs)
    else (200, softDeleteUserFile ufs userFile.id)

/-- C9: once a delete succeeds (status 200), every further delete of the
same reference id by the same principal returns 404 with the state
untouched, and every row bearing that id stays soft-deleted. -/
theorem deleteFile_idempotent (ufs ufs' : List UserFileRec) (u f : Nat)
    (h : deleteFileHandler ufs u f = (200, ufs')) :
    deleteFileHandler ufs' u f = (404, ufs')
    ∧ ∀ uf ∈ ufs', uf.id = f → uf.isDeleted = true := by
  unfold deleteFileHandler at h
  cases hfind : getUserFile ufs u f with
  | none => rw [hfind] at h; cases h
  | some uf0 =>
    rw [hfind] at h
    by_cases hown : uf0.userID = u
    case neg =>
      have hbne : (uf0.userID != u) = true := by simp [hown]
      simp [hbne] at h
    case pos =>
      have hid : uf0.id = f := by
        have hp := List.find?_some hfind
        simp only [Bool.and_eq_true, beq_iff_eq, Bool.not_eq_eq_eq_not,
          Bool.not_true] at hp
        exact hp.1.1
      have hbne : (uf0.userID != u) = false := by simp [hown]
      simp only [hbne, Bool.false_eq_true, if_false] at h
      have hstate : ufs' = softDeleteUserFile ufs uf0.id := by
        have h2 := congrArg Prod.snd h
        simpa using h2.symm
      have hdel : ∀ uf ∈ ufs', uf.id = f → uf.isDeleted = true := by
        intro uf hmem hufid
        rw [hstate] at hmem
        rcases List.mem_map.mp hmem with ⟨x, hx, hxeq⟩
        by_cases hxid : x.id == uf0.id
        · rw [if_pos hxid] at hxeq
          rw [← hxeq]
        · rw [if_neg hxid] at hxeq
          subst hxeq
          exact absurd (show x.id = uf0.id by rw [hufid, hid]) (by simpa using hxid)
      refine ⟨?_, hdel⟩
      have hnone : getUserFile ufs' u f = none := by
        apply List.find?_eq_none.mpr
        intro x hx
        by_cases hxid : x.id = f
        · have := hdel x hx hxid
          simp [this]
        · simp [hxid]
      unfold deleteFileHandler
      rw [hnone]

/-- Witness for `deleteFile_idempotent`: deleting reference 10 of user 1
succeeds once, then returns 404. -/
theorem deleteFile_idempotent_witness :
    deleteFileHandler [⟨10, 1, 100, [], [], false, 0⟩] 1 10
      = (200, [⟨10, 1, 100, [], [], true, 0⟩])
    ∧ deleteFileHandler [⟨10, 1, 100, [], [], true, 0⟩] 1 10
      = (404, [⟨10, 1, 100, [], [], true, 0⟩]) :=
  ⟨by decide,
   (deleteFile_idempotent [⟨10, 1, 100, [], [], false, 0⟩]
      [⟨10, 1, 100, [], [], true, 0⟩] 1 10 (by decide)).1⟩

/-! ## MIME detection and the remaining validation stages
(`FileValidationService`, `src/unnamed/part_009`) -/

/-- A byte the `isTextContent` heuristic does not count as non-printable:
tab, LF, CR, printable ASCII, or a high (UTF-8 continuation/lead) byte. -/
def isAllowedTextByte (b : Nat) : Bool :=
  b == 9 || b == 10 || b == 13 || (decide (32 ≤ b) && decide (b ≤ 126))
    || decide (128 ≤ b)

/-- `FileValidationService.isTextContent`: scan the first 512 bytes; text
when less than 30 % of them are non-printable.  The Go comparison
`float64(nonPrintable)/float64(checkSize) < 0.3` is rendered as the exact
rational comparison `nonPrintable * 10 < checkSize * 3`; the two agree
except when the quotient falls within one double rounding error of 0.3. -/
def isTextContent (content : List Nat) : Bool :=
  if content.isEmpty then false
  else
    let checkSize := min content.length 512
    let nonPrintable :=
      ((content.take checkSize).filter (fun b => !isAllowedTextByte b)).length
    decide (nonPrintable * 10 < checkSize * 3)

/-- The magic-byte signature table of `detectMimeTypeByContent`.  The Go
code ranges over a map (unspecified order); since no two signatures can
match the same content (each pair differs within their common length), the
fixed order below is behaviorally identical. -/
def mimeSignatures : List (List Nat × List Nat) :=
  [([0xFF, 0xD8, 0xFF], strBytes "image/jpeg"),
   ([0x89] ++ strBytes "PNG" ++ [13, 10, 0x1A, 10], strBytes "image/png"),
   (strBytes "GIF87a", strBytes "image/gif"),
   (strBytes "GIF89a", strBytes "image/gif"),
   (strBytes "RIFF", strBytes "image/webp"),
   ([0x00, 0x00, 0x01, 0x00], strBytes "image/x-icon"),
   (strBytes "PK" ++ [3, 4], strBytes "application/zip"),
   (strBytes "%PDF-", strBytes "application/pdf"),
   ([0xD0, 0xCF, 0x11, 0xE0, 0xA1, 0xB1, 0x1A, 0xE1], strBytes "application/msword"),
   (strBytes "Rar!" ++ [0x1A, 7, 0], strBytes "application/x-rar-compressed"),
   ([0x1F, 0x8B], strBytes "application/gzip"),
   (strBytes "7z" ++ [0xBC, 0xAF, 0x27, 0x1C], strBytes "application/x-7z-compressed"),
   (strBytes "ID3", strBytes "audio/mpeg"),
   ([0xFF, 0xFB], strBytes "audio/mpeg"),
   (strBytes "OggS", strBytes "audio/ogg"),
   ([0x1A, 0x45, 0xDF, 0xA3], strBytes "video/webm"),
   ([0xEF, 0xBB, 0xBF], strBytes "text/plain")]

/-- `FileValidationService.detectMimeTypeByContent`: first matching magic
signature (with the RIFF→WEBP/WAV special case), then the XML/HTML probe,
then the text heuristic, else empty.  (`content[:100]` in the HTML probe is
modeled as the first `min(100, len)` bytes.) -/
def detectMimeTypeByContent (content : List Nat) : List Nat :=
  if content.isEmpty then []
  else
    match mimeSignatures.find? (fun sig => startsWithSeq content sig.1) with
    | some sig =>
      if sig.1 == strBytes "RIFF" && decide (12 ≤ content.length) then
        if (content.drop 8).take 4 == strBytes "WEBP" then strBytes "image/webp"
        else strBytes "audio/wav"
      else sig.2
    | none =>
      if decide (5 < content.length)
          && (startsWithSeq content (strBytes "<?xml")
            || startsWithSeq content (strBytes "<html")
            || startsWithSeq content (strBytes "<!DOCTYPE")) then
        if containsSeq (content.take 100) (strBytes "html") then strBytes "text/html"
        else strBytes "application/xml"
      else if isTextContent content then strBytes "text/plain"
      else []

/-- `FileValidationService.detectMimeType`: content detection first, then
`mime.TypeByExtension` (a platform table, passed in as `typeByExt` with the
empty list for "no entry"), then `application/octet-stream`. -/
def detectMimeType (typeByExt : List Nat → List Nat) (filename content : List Nat) :
    List Nat :=
  let byContent := detectMimeTypeByContent content
  if byContent != [] then byContent
  else
    let byExt := typeByExt (filepathExt filename)
    if byExt != [] then byExt
    else strBytes "application/octet-stream"

/-- The warning text of `validateMimeTypeConsistency`. -/
def mimeConsistencyMsg (declared detected : List Nat) : List Nat :=
  strBytes "Declared MIME type (" ++ declared
    ++ strBytes ") differs from detected type (" ++ detected ++ strBytes ")"

/-- The `acceptableMismatches` table of `validateMimeTypeConsistency`. -/
def acceptableMismatchesFor (detected : List Nat) : Option (List (List Nat)) :=
  if detected == strBytes "application/octet-stream" then some [strBytes "*"]
  else if detected == strBytes "text/plain" then
    some [strBytes "application/octet-stream"]
  else if detected == strBytes "application/zip" then
    some [strBytes "application/vnd.openxmlformats-officedocument.wordprocessingml.document",
          strBytes "application/vnd.openxmlformats-officedocument.spreadsheetml.sheet"]
  else none

/-- `FileValidationService.validateMimeTypeConsistency` (warnings only). -/
def validateMimeTypeConsistency (declared detected : List Nat)
    (r : FileValidationResult) : FileValidationResult :=
  if declared.isEmpty then r
  else if detected != declared then
    match acceptableMismatchesFor detected with
    | some accepted =>
      if accepted.any (fun a => a == strBytes "*" || a == declared) then r
      else { r with warnings := r.warnings ++ [mimeConsistencyMsg declared detected] }
    | none => { r with warnings := r.warnings ++ [mimeConsistencyMsg declared detected] }
  else r

/-- The suspicious filename patterns of `checkMaliciousContent`. -/
def suspiciousNamePatterns : List (List Nat) :=
  [strBytes "autorun.inf", strBytes "desktop.ini", strBytes ".htaccess",
   strBytes "web.config", strBytes "config.php", strBytes "wp-config.php",
   strBytes ".env", strBytes "id_rsa", strBytes "id_dsa", strBytes "private.key"]

/-- One iteration of the filename-pattern loop (warning only). -/
def suspiciousNameStep (lowerFilename : List Nat) (r : FileValidationResult)
    (pattern : List Nat) : FileValidationResult :=
  if containsSeq lowerFilename pattern then
    { r with warnings := r.warnings
        ++ [strBytes "Suspicious filename pattern detected: " ++ pattern] }
  else r

/-- The script-injection patterns of `checkMaliciousContent`. -/
def suspiciousScripts : List (List Nat) :=
  [strBytes "<script", strBytes "javascript:", strBytes "vbscript:",
   strBytes "onload=", strBytes "onerror=", strBytes "eval(",
   strBytes "exec(", strBytes "system(", strBytes "shell_exec("]

/-- One iteration of the script-pattern loop (warning only). -/
def suspiciousScriptStep (lowerContent : List Nat) (r : FileValidationResult)
    (script : List Nat) : FileValidationResult :=
  if containsSeq lowerContent script then
    { r with warnings := r.warnings
        ++ [strBytes "Potentially suspicious script content detected: " ++ script] }
  else r

/-- The PE check of `checkMaliciousContent`:
`bytes.Contains(content, "MZ") && bytes.Contains(content, "PE\x00\x00")`. -/
def checkPEExecutable (content : List Nat) (r : FileValidationResult) :
    FileValidationResult :=
  if containsSeq content (strBytes "MZ")
      && containsSeq content (strBytes "PE" ++ [0, 0]) then
    { r with isValid := false
             errors := r.errors
               ++ [strBytes "File contains embedded Windows executable"] }
  else r

/-- The ELF check: `len(content) >= 4 && string(content[:4]) == "\x7FELF"`. -/
def checkELFExecutable (content : List Nat) (r : FileValidationResult) :
    FileValidationResult :=
  if decide (4 ≤ content.length) && content.take 4 == [0x7F] ++ strBytes "ELF" then
    { r with isValid := false
             errors := r.errors
               ++ [strBytes "File contains embedded Linux executable"] }
  else r

/-- The Mach-O check: first four bytes `FEEDFACE` or `FEEDFACF`. -/
def checkMachOExecutable (content : List Nat) (r : FileValidationResult) :
    FileValidationResult :=
  if decide (4 ≤ content.length)
      && (content.take 4 == [0xFE, 0xED, 0xFA, 0xCE]
        || content.take 4 == [0xFE, 0xED, 0xFA, 0xCF]) then
    { r with isValid := false
             errors := r.errors
               ++ [strBytes "File contains embedded macOS executable"] }
  else r

/-- The `len(content) > 2` block of `checkMaliciousContent`: the three
embedded-executable checks in source order. -/
def checkEmbeddedExecutables (content : List Nat) (r : FileValidationResult) :
    FileValidationResult :=
  if decide (2 < content.length) then
    checkMachOExecutable content (checkELFExecutable content (checkPEExecutable content r))
  else r

/-- `FileValidationService.checkMaliciousContent`: warn on suspicious
filename patterns, reject embedded PE/ELF/Mach-O executables, warn on
script patterns in text content.  (`strings.ToLower` acts here only through
its ASCII mapping, since all compared patterns are ASCII.) -/
def checkMaliciousContent (filename content : List Nat)
    (r : FileValidationResult) : FileValidationResult :=
  let r1 := suspiciousNamePatterns.foldl (suspiciousNameStep (asciiToLower filename)) r
  let r2 := checkEmbeddedExecutables content r1
  if isTextContent content then
    suspiciousScripts.foldl (suspiciousScriptStep (asciiToLower content)) r2
  else r2

/-- The hard-blocked extension list of `validateFileExtension`. -/
def dangerousExts : List (List Nat) :=
  [strBytes ".exe", strBytes ".bat", strBytes ".cmd", strBytes ".com",
   strBytes ".pif", strBytes ".scr", strBytes ".vbs", strBytes ".vbe",
   strBytes ".js", strBytes ".jar", strBytes ".msi", strBytes ".dll",
   strBytes ".deb", strBytes ".rpm", strBytes ".dmg", strBytes ".pkg",
   strBytes ".sh", strBytes ".bash", strBytes ".zsh", strBytes ".fish",
   strBytes ".csh", strBytes ".ksh", strBytes ".ps1", strBytes ".psm1",
   strBytes ".py", strBytes ".rb", strBytes ".pl", strBytes ".php",
   strBytes ".asp", strBytes ".aspx", strBytes ".jsp", strBytes ".war",
   strBytes ".ipa", strBytes ".apk", strBytes ".app", strBytes ".gadget",
   strBytes ".workflow"]

/-- The archive extensions that only raise a warning. -/
def suspiciousExts : List (List Nat) :=
  [strBytes ".zip", strBytes ".rar", strBytes ".7z", strBytes ".tar",
   strBytes ".gz", strBytes ".bz2"]

/-- `FileValidationService.validateFileExtension`: reject hard-blocked
extensions (first match returns), warn on archives (first match breaks). -/
def validateFileExtension (filename : List Nat) (r : FileValidationResult) :
    FileValidationResult :=
  let ext := asciiToLower (filepathExt filename)
  if dangerousExts.contains ext then
    { r with isValid := false
             errors := r.errors ++ [strBytes "File type '" ++ ext
               ++ strBytes "' is not allowed for security reasons"] }
  else if suspiciousExts.contains ext then
    { r with warnings := r.warnings ++ [strBytes "Archive file detected (" ++ ext
        ++ strBytes "). Please scan contents before extraction"] }
  else r

/-- `FileValidationService.validateFileSignature` (warnings only). -/
def validateFileSignature (content detected : List Nat)
    (r : FileValidationResult) : FileValidationResult :=
  if content.length < 4 then r
  else if detected == strBytes "image/jpeg" then
    if !startsWithSeq content [0xFF, 0xD8, 0xFF] then
      { r with warnings := r.warnings
          ++ [strBytes "JPEG file signature validation failed"] }
    else r
  else if detected == strBytes "image/png" then
    if !startsWithSeq content ([0x89] ++ strBytes "PNG" ++ [13, 10, 0x1A, 10]) then
      { r with warnings := r.warnings
          ++ [strBytes "PNG file signature validation failed"] }
    else r
  else if detected == strBytes "application/pdf" then
    if !startsWithSeq content (strBytes "%PDF-") then
      { r with warnings := r.warnings
          ++ [strBytes "PDF file signature validation failed"] }
    else r
  else r

/-- `FileValidationService.ValidateFile`: buffer the content (its length is
the file size), fingerprint it (`sha256` enters as the parameter `hash`),
then run the validation stages in source order.  `typeByExt` is the
platform MIME-by-extension table used by `detectMimeType`. -/
def validateFile (hash : List Nat → List Nat) (typeByExt : List Nat → List Nat)
    (filename declaredMimeType content : List Nat) : FileValidationResult :=
  let size := content.length
  let result1 := { newValidationResult with fileSize := size, contentHash := hash content }
  let result2 := validateFileSize size result1
  let result3 := validateFilename filename result2
  let detected := detectMimeType typeByExt filename content
  let result4 := { result3 with detectedMimeType := detected }
  let result5 := validateMimeTypeConsistency declaredMimeType detected result4
  let result6 := checkMaliciousContent filename content result5
  let result7 := validateFileExtension filename result6
  validateFileSignature content detected result7

/-! ## Upload pipeline (`FileUploadService.UploadFile`)

`uuid.New()` produces ids that are fresh with respect to all previously
issued ones; the embedding issues them from the monotone counter `nextID`.
The metadata store is the record lists; the object store is an association
list keyed by storage path. -/

/-- `models.File` (the fields `UploadFile` writes). -/
structure FileRec where
  id : Nat
  contentHash : List Nat
  filename : List Nat
  originalMimeType : List Nat
  detectedMimeType : List Nat
  fileSize : Nat
  storagePath : List Nat
  ownerID : Option Nat
  primaryGroupID : Option Nat
  filePermissions : Nat
deriving DecidableEq, Repr

/-- The persistent state the upload pipeline touches. -/
structure UploadState where
  files : List FileRec
  userFiles : List UserFileRec
  storage : List (List Nat × List Nat)
  nextID : Nat
deriving DecidableEq, Repr

/-- `services.UploadFileRequest` (the fields `UploadFile` reads). -/
structure UploadFileRequest where
  userID : Nat
  filename : List Nat
  userFilename : List Nat
  mimeType : List Nat
  folderPath : List Nat
  content : List Nat
  ownerID : Option Nat
  primaryGroupID : Option Nat
  filePermissions : Nat
deriving DecidableEq, Repr

/-- `services.UploadFileResponse`. -/
structure UploadFileResponse where
  fileID : Nat
  userFileID : Nat
  isExisting : Bool
  savingsBytes : Nat
  warnings : List (List Nat)
deriving DecidableEq, Repr

/-- `FileRepository.GetByContentHash`: first file row with the hash (an
error — surfaced as `nil` to `UploadFile` — when there is none). -/
def getByContentHash (files : List FileRec) (h : List Nat) : Option FileRec :=
  files.find? (fun f => f.contentHash == h)

/-- `FileUploadService.UploadFile`: validate; on a content-hash hit reuse
the existing file and record the saved bytes; on a miss write the object
and create the file row; either way create a fresh user-file reference.
Validation failure surfaces as `none` (the Go error return). -/
def uploadFile (hash typeByExt : List Nat → List Nat) (s : UploadState)
    (req : UploadFileRequest) : Option (UploadFileResponse × UploadState) :=
  let validation := validateFile hash typeByExt req.filename req.mimeType req.content
  if !validation.isValid then none
  else
    match getByContentHash s.files validation.contentHash with
    | some existingFile =>
      let userFile : UserFileRec :=
        { id := s.nextID, userID := req.userID, fileID := existingFile.id
          userFilename := req.userFilename, folderPath := req.folderPath
          isDeleted := false, downloadCount := 0 }
      some ({ fileID := existingFile.id, userFileID := userFile.id
              isExisting := true, savingsBytes := validation.fileSize
              warnings := validation.warnings },
            { s with userFiles := s.userFiles ++ [userFile], nextID := s.nextID + 1 })
    | none =>
      let storagePath := generateStoragePathService validation.contentHash
      let file : FileRec :=
        { id := s.nextID, contentHash := validation.contentHash
          filename := req.filename, originalMimeType := req.mimeType
          detectedMimeType := validation.detectedMimeType
          fileSize := validation.fileSize, storagePath := storagePath
          ownerID := req.ownerID, primaryGroupID := req.primaryGroupID
          filePermissions := req.filePermissions }
      let userFile : UserFileRec :=
        { id := s.nextID + 1, userID := req.userID, fileID := file.id
          userFilename := req.userFilename, folderPath := req.folderPath
          isDeleted := false, downloadCount := 0 }
      some ({ fileID := file.id, userFileID := userFile.id
              isExisting := false, savingsBytes := 0
              warnings := validation.warnings },
            { files := s.files ++ [file]
              userFiles := s.userFiles ++ [userFile]
              storage := s.storage ++ [(storagePath, req.content)]
              nextID := s.nextID + 2 })

/-- A validation stage leaves the fingerprint and measured size alone. -/
def PreservesMeta (S : FileValidationResult → FileValidationResult) : Prop :=
  ∀ r, (S r).contentHash = r.contentHash ∧ (S r).fileSize = r.fileSize

theorem preservesMeta_validateFileSize (size : Nat) :
    PreservesMeta (validateFileSize size) := by
  intro r
  simp only [validateFileSize]
  split <;> split <;> exact ⟨rfl, rfl⟩

theorem preservesMeta_fold_dangerous (f : List Nat) (cs : List (List Nat)) :
    ∀ r, ((cs.foldl (dangerousCharStep f) r).contentHash = r.contentHash
      ∧ (cs.foldl (dangerousCharStep f) r).fileSize = r.fileSize) := by
  induction cs with
  | nil => intro r; exact ⟨rfl, rfl⟩
  | cons c cs ih =>
    intro r
    have hstep : (dangerousCharStep f r c).contentHash = r.contentHash
        ∧ (dangerousCharStep f r c).fileSize = r.fileSize := by
      simp only [dangerousCharStep]
      split <;> exact ⟨rfl, rfl⟩
    have := ih (dangerousCharStep f r c)
    exact ⟨this.1.trans hstep.1, this.2.trans hstep.2⟩

theorem preservesMeta_validateFilename (f : List Nat) :
    PreservesMeta (validateFilename f) := by
  intro r
  simp only [validateFilename]
  split
  · exact ⟨rfl, rfl⟩
  · have h1 := preservesMeta_fold_dangerous f dangerousChars r
    have h2 : ∀ x : FileValidationResult,
        (validateFilenameLen f x).contentHash = x.contentHash
        ∧ (validateFilenameLen f x).fileSize = x.fileSize := by
      intro x
      simp only [validateFilenameLen]
      split <;> exact ⟨rfl, rfl⟩
    have h3 : ∀ x : FileValidationResult,
        (validateFilenameNul f x).contentHash = x.contentHash
        ∧ (validateFilenameNul f x).fileSize = x.fileSize := by
      intro x
      simp only [validateFilenameNul]
      split <;> exact ⟨rfl, rfl⟩
    refine ⟨?_, ?_⟩
    · exact ((h3 _).1.trans ((h2 _).1.trans h1.1))
    · exact ((h3 _).2.trans ((h2 _).2.trans h1.2))

theorem preservesMeta_validateMimeTypeConsistency (d dt : List Nat) :
    PreservesMeta (validateMimeTypeConsistency d dt) := by
  intro r
  simp only [validateMimeTypeConsistency]
  split
  · exact ⟨rfl, rfl⟩
  · split
    · split
      · split <;> exact ⟨rfl, rfl⟩
      · exact ⟨rfl, rfl⟩
    · exact ⟨rfl, rfl⟩

theorem preservesMeta_fold_scripts (lc : List Nat) (cs : List (List Nat)) :
    ∀ r, ((cs.foldl (suspiciousScriptStep lc) r).contentHash = r.contentHash
      ∧ (cs.foldl (suspiciousScriptStep lc) r).fileSize = r.fileSize) := by
  induction cs with
  | nil => intro r; exact ⟨rfl, rfl⟩
  | cons c cs ih =>
    intro r
    have hstep : (suspiciousScriptStep lc r c).contentHash = r.contentHash
        ∧ (suspiciousScriptStep lc r c).fileSize = r.fileSize := by
      simp only [suspiciousScriptStep]
      split <;> exact ⟨rfl, rfl⟩
    have := ih (suspiciousScriptStep lc r c)
    exact ⟨this.1.trans hstep.1, this.2.trans hstep.2⟩

theorem preservesMeta_fold_names (lf : List Nat) (cs : List (List Nat)) :
    ∀ r, ((cs.foldl (suspiciousNameStep lf) r).contentHash = r.contentHash
      ∧ (cs.foldl (suspiciousNameStep lf) r).fileSize = r.fileSize) := by
  induction cs with
  | nil => intro r; exact ⟨rfl, rfl⟩
  | cons c cs ih =>
    intro r
    have hstep : (suspiciousNameStep lf r c).contentHash = r.contentHash
        ∧ (suspiciousNameStep lf r c).fileSize = r.fileSize := by
      simp only [suspiciousNameStep]
      split <;> exact ⟨rfl, rfl⟩
    have := ih (suspiciousNameStep lf r c)
    exact ⟨this.1.trans hstep.1, this.2.trans hstep.2⟩

theorem preservesMeta_checkEmbeddedExecutables (c : List Nat) :
    PreservesMeta (checkEmbeddedExecutables c) := by
  intro r
  have hPE : ∀ x : FileValidationResult, (checkPEExecutable c x).contentHash = x.contentHash
      ∧ (checkPEExecutable c x).fileSize = x.fileSize := by
    intro x
    simp only [checkPEExecutable]
    split <;> exact ⟨rfl, rfl⟩
  have hELF : ∀ x : FileValidationResult, (checkELFExecutable c x).contentHash = x.contentHash
      ∧ (checkELFExecutable c x).fileSize = x.fileSize := by
    intro x
    simp only [checkELFExecutable]
    split <;> exact ⟨rfl, rfl⟩
  have hMachO : ∀ x : FileValidationResult, (checkMachOExecutable c x).contentHash = x.contentHash
      ∧ (checkMachOExecutable c x).fileSize = x.fileSize := by
    intro x
    simp only [checkMachOExecutable]
    split <;> exact ⟨rfl, rfl⟩
  simp only [checkEmbeddedExecutables]
  split
  · exact ⟨(hMachO _).1.trans ((hELF _).1.trans (hPE _).1),
      (hMachO _).2.trans ((hELF _).2.trans (hPE _).2)⟩
  · exact ⟨rfl, rfl⟩

theorem preservesMeta_checkMaliciousContent (f c : List Nat) :
    PreservesMeta (checkMaliciousContent f c) := by
  intro r
  simp only [checkMaliciousContent]
  have h1 := preservesMeta_fold_names (asciiToLower f) suspiciousNamePatterns r
  have h2 := preservesMeta_checkEmbeddedExecutables c
    (suspiciousNamePatterns.foldl (suspiciousNameStep (asciiToLower f)) r)
  split
  · have h3 := preservesMeta_fold_scripts (asciiToLower c) suspiciousScripts
      (checkEmbeddedExecutables c
        (suspiciousNamePatterns.foldl (suspiciousNameStep (asciiToLower f)) r))
    exact ⟨(h3.1.trans h2.1).trans h1.1, (h3.2.trans h2.2).trans h1.2⟩
  · exact ⟨h2.1.trans h1.1, h2.2.trans h1.2⟩

theorem preservesMeta_validateFileExtension (f : List Nat) :
    PreservesMeta (validateFileExtension f) := by
  intro r
  simp only [validateFileExtension]
  split
  · exact ⟨rfl, rfl⟩
  · split <;> exact ⟨rfl, rfl⟩

theorem preservesMeta_validateFileSignature (c dt : List Nat) :
    PreservesMeta (validateFileSignature c dt) := by
  intro r
  simp only [validateFileSignature]
  split
  · exact ⟨rfl, rfl⟩
  · split
    · split <;> exact ⟨rfl, rfl⟩
    · split
      · split <;> exact ⟨rfl, rfl⟩
      · split
        · split <;> exact ⟨rfl, rfl⟩
        · exact ⟨rfl, rfl⟩

@[simp] theorem validateFileSize_contentHash (size : Nat) (r : FileValidationResult) :
    (validateFileSize size r).contentHash = r.contentHash :=
  (preservesMeta_validateFileSize size r).1

@[simp] theorem validateFileSize_fileSize (size : Nat) (r : FileValidationResult) :
    (validateFileSize size r).fileSize = r.fileSize :=
  (preservesMeta_validateFileSize size r).2

@[simp] theorem validateFilename_contentHash (f : List Nat) (r : FileValidationResult) :
    (validateFilename f r).contentHash = r.contentHash :=
  (preservesMeta_validateFilename f r).1

@[simp] theorem validateFilename_fileSize (f : List Nat) (r : FileValidationResult) :
    (validateFilename f r).fileSize = r.fileSize :=
  (preservesMeta_validateFilename f r).2

@[simp] theorem validateMimeTypeConsistency_contentHash (d dt : List Nat)
    (r : FileValidationResult) :
    (validateMimeTypeConsistency d dt r).contentHash = r.contentHash :=
  (preservesMeta_validateMimeTypeConsistency d dt r).1

@[simp] theorem validateMimeTypeConsistency_fileSize (d dt : List Nat)
    (r : FileValidationResult) :
    (validateMimeTypeConsistency d dt r).fileSize = r.fileSize :=
  (preservesMeta_validateMimeTypeConsistency d dt r).2

@[simp] theorem checkMaliciousContent_contentHash (f c : List Nat)
    (r : FileValidationResult) :
    (checkMaliciousContent f c r).contentHash = r.contentHash :=
  (preservesMeta_checkMaliciousContent f c r).1

@[simp] theorem checkMaliciousContent_fileSize (f c : List Nat)
    (r : FileValidationResult) :
    (checkMaliciousContent f c r).fileSize = r.fileSize :=
  (preservesMeta_checkMaliciousContent f c r).2

@[simp] theorem validateFileExtension_contentHash (f : List Nat)
    (r : FileValidationResult) :
    (validateFileExtension f r).contentHash = r.contentHash :=
  (preservesMeta_validateFileExtension f r).1

@[simp] theorem validateFileExtension_fileSize (f : List Nat)
    (r : FileValidationResult) :
    (validateFileExtension f r).fileSize = r.fileSize :=
  (preservesMeta_validateFileExtension f r).2

@[simp] theorem validateFileSignature_contentHash (c dt : List Nat)
    (r : FileValidationResult) :
    (validateFileSignature c dt r).contentHash = r.contentHash :=
  (preservesMeta_validateFileSignature c dt r).1

@[simp] theorem validateFileSignature_fileSize (c dt : List Nat)
    (r : FileValidationResult) :
    (validateFileSignature c dt r).fileSize = r.fileSize :=
  (preservesMeta_validateFileSignature c dt r).2

/-- The validation result carries the fingerprint of the content and its
byte length, whatever the later stages did. -/
theorem validateFile_meta (hash typeByExt : List Nat → List Nat)
    (f m c : List Nat) :
    (validateFile hash typeByExt f m c).contentHash = hash c
    ∧ (validateFile hash typeByExt f m c).fileSize = c.length := by
  refine ⟨?_, ?_⟩ <;> simp [validateFile]

/-- The validation result `UploadFile` computes for a request. -/
def uploadValidation (hash typeByExt : List Nat → List Nat)
    (req : UploadFileRequest) : FileValidationResult :=
  validateFile hash typeByExt req.filename req.mimeType req.content

/-- The file row the miss path of `uploadFile` inserts. -/
def missFile (hash typeByExt : List Nat → List Nat) (s : UploadState)
    (req : UploadFileRequest) : FileRec :=
  { id := s.nextID
    contentHash := (uploadValidation hash typeByExt req).contentHash
    filename := req.filename
    originalMimeType := req.mimeType
    detectedMimeType := (uploadValidation hash typeByExt req).detectedMimeType
    fileSize := (uploadValidation hash typeByExt req).fileSize
    storagePath := generateStoragePathService
      (uploadValidation hash typeByExt req).contentHash
    ownerID := req.ownerID
    primaryGroupID := req.primaryGroupID
    filePermissions := req.filePermissions }

/-- The user-file row the miss path of `uploadFile` inserts. -/
def missUserFile (s : UploadState) (req : UploadFileRequest) : UserFileRec :=
  { id := s.nextID + 1, userID := req.userID, fileID := s.nextID
    userFilename := req.userFilename, folderPath := req.folderPath
    isDeleted := false, downloadCount := 0 }

/-- The state after the miss path of `uploadFile`. -/
def missState (hash typeByExt : List Nat → List Nat) (s : UploadState)
    (req : UploadFileRequest) : UploadState :=
  { files := s.files ++ [missFile hash typeByExt s req]
    userFiles := s.userFiles ++ [missUserFile s req]
    storage := s.storage
      ++ [(generateStoragePathService
            (uploadValidation hash typeByExt req).contentHash, req.content)]
    nextID := s.nextID + 2 }

/-- The user-file row the hit (dedup) path of `uploadFile` inserts. -/
def hitUserFile (s : UploadState) (req : UploadFileRequest) (ef : FileRec) :
    UserFileRec :=
  { id := s.nextID, userID := req.userID, fileID := ef.id
    userFilename := req.userFilename, folderPath := req.folderPath
    isDeleted := false, downloadCount := 0 }

/-- The state after the hit (dedup) path of `uploadFile`. -/
def hitState (s : UploadState) (req : UploadFileRequest) (ef : FileRec) :
    UploadState :=
  { s with userFiles := s.userFiles ++ [hitUserFile s req ef]
           nextID := s.nextID + 1 }

theorem uploadFile_hit (hash typeByExt : List Nat → List Nat) (s : UploadState)
    (req : UploadFileRequest) (ef : FileRec)
    (hv : (uploadValidation hash typeByExt req).isValid = true)
    (hhit : getByContentHash s.files
      (uploadValidation hash typeByExt req).contentHash = some ef) :
    uploadFile hash typeByExt s req
      = some ({ fileID := ef.id, userFileID := s.nextID, isExisting := true
                savingsBytes := (uploadValidation hash typeByExt req).fileSize
                warnings := (uploadValidation hash typeByExt req).warnings },
              hitState s req ef) := by
  simp only [uploadValidation] at hv hhit
  simp only [uploadFile, hv, Bool.not_true, Bool.false_eq_true, if_false, hhit,
    hitState, hitUserFile, uploadValidation]

theorem uploadFile_miss (hash typeByExt : List Nat → List Nat) (s : UploadState)
    (req : UploadFileRequest)
    (hv : (uploadValidation hash typeByExt req).isValid = true)
    (hmiss : getByContentHash s.files
      (uploadValidation hash typeByExt req).contentHash = none) :
    uploadFile hash typeByExt s req
      = some ({ fileID := s.nextID, userFileID := s.nextID + 1
                isExisting := false, savingsBytes := 0
                warnings := (uploadValidation hash typeByExt req).warnings },
              missState hash typeByExt s req) := by
  simp only [uploadValidation] at hv hmiss
  simp only [uploadFile, hv, Bool.not_true, Bool.false_eq_true, if_false, hmiss,
    missState, missFile, missUserFile, uploadValidation]

/-- C1: uploading the same byte content twice (any two principals, content
not previously stored): the first call stores a new Content Object and
reports `isExisting = false`, `savingsBytes = 0`; the second call finds the
existing object (`isExisting = true`), reports `savingsBytes` equal to the
content's byte length, returns the same file id, and creates a second,
distinct user reference to that file; both references exist in the final
state. -/
theorem uploadFile_dedup_savings (hash typeByExt : List Nat → List Nat)
    (s : UploadState) (req1 req2 : UploadFileRequest)
    (hcontent : req2.content = req1.content)
    (hnew : getByContentHash s.files (hash req1.content) = none)
    (hv1 : (uploadValidation hash typeByExt req1).isValid = true)
    (hv2 : (uploadValidation hash typeByExt req2).isValid = true) :
    ∃ resp1 s1 resp2 s2,
      uploadFile hash typeByExt s req1 = some (resp1, s1)
      ∧ uploadFile hash typeByExt s1 req2 = some (resp2, s2)
      ∧ resp1.isExisting = false
      ∧ resp1.savingsBytes = 0
      ∧ resp2.isExisting = true
      ∧ resp2.savingsBytes = req2.content.length
      ∧ resp2.fileID = resp1.fileID
      ∧ resp2.userFileID ≠ resp1.userFileID
      ∧ (∃ uf ∈ s2.userFiles, uf.id = resp1.userFileID
          ∧ uf.fileID = resp1.fileID ∧ uf.userID = req1.userID)
      ∧ (∃ uf ∈ s2.userFiles, uf.id = resp2.userFileID
          ∧ uf.fileID = resp1.fileID ∧ uf.userID = req2.userID) := by
  have hch1 : (uploadValidation hash typeByExt req1).contentHash = hash req1.content :=
    (validateFile_meta hash typeByExt req1.filename req1.mimeType req1.content).1
  have hch2 : (uploadValidation hash typeByExt req2).contentHash = hash req1.content :=
    ((validateFile_meta hash typeByExt req2.filename req2.mimeType
      req2.content).1).trans (congrArg hash hcontent)
  have hsz2 : (uploadValidation hash typeByExt req2).fileSize = req2.content.length :=
    (validateFile_meta hash typeByExt req2.filename req2.mimeType req2.content).2
  have h1 := uploadFile_miss hash typeByExt s req1 hv1 (by rw [hch1]; exact hnew)
  have hhit : getByContentHash (missState hash typeByExt s req1).files
      (uploadValidation hash typeByExt req2).contentHash
      = some (missFile hash typeByExt s req1) := by
    have hn : List.find?
        (fun f => f.contentHash == (uploadValidation hash typeByExt req2).contentHash)
        s.files = none := by
      rw [hch2]
      simpa [getByContentHash] using hnew
    simp only [missState, getByContentHash, List.find?_append, hn, Option.none_or]
    have hfeq : (missFile hash typeByExt s req1).contentHash
        == (uploadValidation hash typeByExt req2).contentHash := by
      simp only [missFile]
      rw [hch1, hch2]
      simp
    simp [List.find?, hfeq]
  have h2 := uploadFile_hit hash typeByExt (missState hash typeByExt s req1) req2
    (missFile hash typeByExt s req1) hv2 hhit
  refine ⟨_, _, _, _, h1, h2, rfl, rfl, rfl, hsz2, rfl, ?_, ?_, ?_⟩
  · show (missState hash typeByExt s req1).nextID ≠ s.nextID + 1
    show s.nextID + 2 ≠ s.nextID + 1
    omega
  · refine ⟨missUserFile s req1, ?_, rfl, rfl, rfl⟩
    show missUserFile s req1 ∈ (hitState (missState hash typeByExt s req1) req2
      (missFile hash typeByExt s req1)).userFiles
    simp [hitState, missState]
  · refine ⟨hitUserFile (missState hash typeByExt s req1) req2
      (missFile hash typeByExt s req1), ?_, rfl, rfl, rfl⟩
    simp [hitState, missState]

/-- Witness for `uploadFile_dedup_savings`: principal 1 then principal 2
upload the bytes of `hello` into an empty state (the fingerprint function
instantiated with the identity on byte lists). -/
theorem uploadFile_dedup_savings_witness :
    ∃ resp1 s1 resp2 s2,
      uploadFile (fun c => c) (fun _ => []) ⟨[], [], [], 0⟩
        ⟨1, strBytes "a.txt", strBytes "a.txt", [], strBytes "/",
          strBytes "hello", some 1, none, 644⟩ = some (resp1, s1)
      ∧ uploadFile (fun c => c) (fun _ => []) s1
        ⟨2, strBytes "b.txt", strBytes "b.txt", [], strBytes "/",
          strBytes "hello", some 2, none, 644⟩ = some (resp2, s2)
      ∧ resp1.isExisting = false
      ∧ resp1.savingsBytes = 0
      ∧ resp2.isExisting = true
      ∧ resp2.savingsBytes = (UploadFileRequest.content
          ⟨2, strBytes "b.txt", strBytes "b.txt", [], strBytes "/",
            strBytes "hello", some 2, none, 644⟩).length
      ∧ resp2.fileID = resp1.fileID
      ∧ resp2.userFileID ≠ resp1.userFileID
      ∧ (∃ uf ∈ s2.userFiles, uf.id = resp1.userFileID
          ∧ uf.fileID = resp1.fileID ∧ uf.userID = 1)
      ∧ (∃ uf ∈ s2.userFiles, uf.id = resp2.userFileID
          ∧ uf.fileID = resp1.fileID ∧ uf.userID = 2) :=
  uploadFile_dedup_savings (fun c => c) (fun _ => []) ⟨[], [], [], 0⟩
    ⟨1, strBytes "a.txt", strBytes "a.txt", [], strBytes "/",
      strBytes "hello", some 1, none, 644⟩
    ⟨2, strBytes "b.txt", strBytes "b.txt", [], strBytes "/",
      strBytes "hello", some 2, none, 644⟩
    rfl (by decide) (by decide) (by decide)

end Soter
